import Mathlib

/-!
Verification of the dinhero-flow account-balance subsystem.

This file gives a shallow embedding of the SQL core of the repository:

* `update_account_balance` — the row-level trigger function of migration
  `9999999999999_excelencia_core.sql` (the canonical `is_paid`/BIGINT
  revision), modelled as a pure function from a ledger write event and a
  balance map to a new balance map.  Each `UPDATE public.accounts SET
  balance = balance + X WHERE id = ...` statement becomes one `addBal`.
* `create_transfer_transaction` — the transfer RPC, which inserts two
  ledger rows and relies on the trigger for all balance updates.
* `manage_credit_bills` — the billing-cycle cron job, modelled as a pure
  function from (today, accounts, stored bills) to the new stored bills.
* `get_analytics_report` — the read-only reporting RPC.
* `reconcile_transaction` — the bank-reconciliation RPC.

Monetary amounts are integer cents (`Int`, mirroring BIGINT).  Calendar
dates (`DATE` values and the `YYYY-MM-DD` TEXT dates of the transactions
table) are modelled as year/month/day triples ordered lexicographically,
which coincides with both DATE order and the lexicographic TEXT order the
SQL relies on; PostgreSQL day/month interval arithmetic (including the
day-clamping of `+ '1 month'::interval`) is reproduced explicitly.
-/

namespace DinheroFlow

/-! ## Calendar dates -/

/-- A calendar date (PostgreSQL `DATE`, or a `YYYY-MM-DD` TEXT date). -/
structure Date where
  year : Nat
  month : Nat
  day : Nat
deriving DecidableEq, Repr

/-- Boolean `≤` on dates: lexicographic on (year, month, day), which is the
order PostgreSQL uses for DATE values and for `YYYY-MM-DD` text. -/
def Date.ble (a b : Date) : Bool :=
  Nat.blt a.year b.year ||
    (a.year == b.year &&
      (Nat.blt a.month b.month ||
        (a.month == b.month && Nat.ble a.day b.day)))

/-- Boolean `<` on dates, lexicographic. -/
def Date.blt (a b : Date) : Bool :=
  Nat.blt a.year b.year ||
    (a.year == b.year &&
      (Nat.blt a.month b.month ||
        (a.month == b.month && Nat.blt a.day b.day)))

/-- Gregorian leap-year test, as used by PostgreSQL date arithmetic. -/
def isLeap (y : Nat) : Bool :=
  (y % 4 == 0 && y % 100 != 0) || (y % 400 == 0)

/-- Number of days in a month of a given year. -/
def daysInMonth (y m : Nat) : Nat :=
  if m == 2 then (if isLeap y then 29 else 28)
  else if m == 4 || m == 6 || m == 9 || m == 11 then 30
  else 31

/-- The day after `d`. -/
def Date.nextDay (d : Date) : Date :=
  if d.day < daysInMonth d.year d.month then ⟨d.year, d.month, d.day + 1⟩
  else if d.month < 12 then ⟨d.year, d.month + 1, 1⟩
  else ⟨d.year + 1, 1, 1⟩

/-- The day before `d`. -/
def Date.prevDay (d : Date) : Date :=
  if 1 < d.day then ⟨d.year, d.month, d.day - 1⟩
  else if 1 < d.month then ⟨d.year, d.month - 1, daysInMonth d.year (d.month - 1)⟩
  else ⟨d.year - 1, 12, 31⟩

/-- `d` plus `n` days (`n : Nat`). -/
def Date.addDaysNat (d : Date) : Nat → Date
  | 0 => d
  | n + 1 => (d.addDaysNat n).nextDay

/-- `d` minus `n` days (`n : Nat`). -/
def Date.subDaysNat (d : Date) : Nat → Date
  | 0 => d
  | n + 1 => (d.subDaysNat n).prevDay

/-- `d + (n || ' days')::interval`: signed day addition. -/
def Date.addDays (d : Date) (n : Int) : Date :=
  if 0 ≤ n then d.addDaysNat n.toNat else d.subDaysNat (-n).toNat

/-- `date_trunc('month', d)`: the first day of the month of `d`. -/
def Date.truncMonth (d : Date) : Date := ⟨d.year, d.month, 1⟩

/-- `d + '1 month'::interval`: next month, day clamped to its length (the
PostgreSQL behaviour, e.g. Jan 31 + 1 month = Feb 28). -/
def Date.addMonth (d : Date) : Date :=
  if d.month < 12 then
    ⟨d.year, d.month + 1, min d.day (daysInMonth d.year (d.month + 1))⟩
  else ⟨d.year + 1, 1, min d.day 31⟩

/-- `d - '1 month'::interval`: previous month, day clamped. -/
def Date.subMonth (d : Date) : Date :=
  if 1 < d.month then
    ⟨d.year, d.month - 1, min d.day (daysInMonth d.year (d.month - 1))⟩
  else ⟨d.year - 1, 12, min d.day 31⟩

/-! ## Ledger rows and the balance trigger -/

/-- The `type` column of `transactions`. -/
inductive TxType
  | income
  | expense
  | transfer
deriving DecidableEq, Repr

/-- A row of `public.transactions` (the columns the core logic reads). -/
structure Tx where
  id : Nat
  userId : Nat
  accountId : Nat
  toAccountId : Option Nat
  amount : Int
  ttype : TxType
  isPaid : Bool
  date : Date
  categoryId : Option Nat
  includeInReports : Bool
  transferId : Option Nat
  description : String
  bankReference : Option String
  reconciliationDate : Option Nat
  updatedAt : Nat
deriving DecidableEq, Repr

/-- Cached balances of `public.accounts`, keyed by account id. -/
def Balances : Type := Nat → Int

/-- One `UPDATE public.accounts SET balance = balance + v WHERE id = c`. -/
def addBal (bal : Balances) (c : Nat) (v : Int) : Balances :=
  fun b => if b = c then bal b + v else bal b

/-- A row-level write event on `transactions`, as seen by the trigger:
`TG_OP` together with the OLD and/or NEW row. -/
inductive TxEvent
  | insert (new : Tx)
  | delete (old : Tx)
  | update (old new : Tx)
deriving DecidableEq, Repr

/-- `public.update_account_balance()` — the balance trigger function of the
canonical (`is_paid`/BIGINT) revision of `9999999999999_excelencia_core.sql`.
Transfers with a `to_account_id` are handled only in the UPDATE branch,
exactly as in the source. -/
def update_account_balance (ev : TxEvent) (bal : Balances) : Balances :=
  match ev with
  | .insert new =>
      let vNew : Int := if new.isPaid then new.amount else 0
      addBal bal new.accountId vNew
  | .delete old =>
      let vOld : Int := if old.isPaid then -old.amount else 0
      addBal bal old.accountId vOld
  | .update old new =>
      let vOld : Int := if old.isPaid then -old.amount else 0
      let vNew : Int := if new.isPaid then new.amount else 0
      let bal1 :=
        if old.accountId = new.accountId then
          addBal bal new.accountId (vNew + vOld)
        else
          addBal (addBal bal old.accountId vOld) new.accountId vNew
      let bal2 :=
        match old.toAccountId with
        | some c => if old.ttype = .transfer then addBal bal1 c (-vOld) else bal1
        | none => bal1
      match new.toAccountId with
      | some c => if new.ttype = .transfer then addBal bal2 c (-vNew) else bal2
      | none => bal2

/-! ## The ledger as source of truth -/

/-- Signed contribution of one ledger row to the derived balance of account
`a`: settled rows add their amount to their primary account, and settled
transfer rows additionally subtract their amount from their counter-account
(the §4.2 sign convention of the specification). -/
def contrib (a : Nat) (t : Tx) : Int :=
  (if t.isPaid = true ∧ t.accountId = a then t.amount else 0)
    - (if t.isPaid = true ∧ t.ttype = .transfer ∧ t.toAccountId = some a then
         t.amount else 0)

/-- The balance of account `a` derived from the ledger. -/
def ledgerBalance (a : Nat) (txs : List Tx) : Int :=
  (txs.map (contrib a)).sum

/-- Effect of a write event on the stored `transactions` rows. -/
def applyLedger : TxEvent → List Tx → List Tx
  | .insert n, txs => txs ++ [n]
  | .delete o, txs => txs.erase o
  | .update o n, txs => txs.erase o ++ [n]

/-- The cached balances agree with the ledger-derived balances. -/
def consistent (bal : Balances) (txs : List Tx) : Prop :=
  ∀ a, bal a = ledgerBalance a txs

/-- A settled transfer row that carries a counter-account. -/
def settledCounterTransfer (t : Tx) : Prop :=
  t.isPaid = true ∧ t.ttype = .transfer ∧ t.toAccountId ≠ none

/-- Validity of one event against the current rows: deleted and replaced
rows must exist, and (for the amended invariant) inserted or deleted rows
must not be settled transfers with a counter-account, since the trigger's
INSERT and DELETE branches do not touch counter-accounts. -/
def okEvent (txs : List Tx) : TxEvent → Prop
  | .insert n => ¬ settledCounterTransfer n
  | .delete o => o ∈ txs ∧ ¬ settledCounterTransfer o
  | .update o _ => o ∈ txs

/-- Validity of a sequence of events, threaded through the evolving rows. -/
def okEvents : List Tx → List TxEvent → Prop
  | _, [] => True
  | txs, e :: es => okEvent txs e ∧ okEvents (applyLedger e txs) es

/-- Run a sequence of events: each one updates the stored rows and fires
the `on_transaction_change` trigger on the cached balances. -/
def applyAll : List TxEvent → List Tx → Balances → List Tx × Balances
  | [], txs, bal => (txs, bal)
  | e :: es, txs, bal =>
      applyAll es (applyLedger e txs) (update_account_balance e bal)

/-! ## Database state, transfers and bank reconciliation -/

/-- A row of `audit_log` as written by `reconcile_transaction` (the
columns that carry information in this model). -/
structure AuditEntry where
  operation : String
  tableName : String
  recordId : Nat
  bankReference : String
  reconciliationDate : Nat
deriving DecidableEq, Repr

/-- The mutable database state the core subsystem touches. -/
structure DbState where
  txs : List Tx
  balances : Balances
  audit : List AuditEntry

/-- Insert one `transactions` row; the `on_transaction_change` trigger
fires and updates the cached balances. -/
def insertTransaction (t : Tx) (st : DbState) : DbState :=
  { st with
      txs := st.txs ++ [t]
      balances := update_account_balance (.insert t) st.balances }

/-- The two ledger rows inserted by `public.create_transfer_transaction`:
a settled negative expense leg on the source account and a settled
positive income leg on the destination account, sharing `transfer_id` and
excluded from reports.  `id1`/`id2` model the generated row ids and `tid`
the generated `v_transfer_id`. -/
def transferLegs (uid fromAcc toAcc : Nat) (amount : Int) (d : Date)
    (tid id1 id2 : Nat) : List Tx :=
  [{ id := id1, userId := uid, accountId := fromAcc, toAccountId := none,
     amount := -|amount|, ttype := .expense, isPaid := true, date := d,
     categoryId := none, includeInReports := false, transferId := some tid,
     description := "Transferência enviada", bankReference := none,
     reconciliationDate := none, updatedAt := 0 },
   { id := id2, userId := uid, accountId := toAcc, toAccountId := none,
     amount := |amount|, ttype := .income, isPaid := true, date := d,
     categoryId := none, includeInReports := false, transferId := some tid,
     description := "Transferência recebida", bankReference := none,
     reconciliationDate := none, updatedAt := 0 }]

/-- `public.create_transfer_transaction`: two plain INSERTs; all balance
maintenance is left to the `on_transaction_change` trigger. -/
def create_transfer_transaction (uid fromAcc toAcc : Nat) (amount : Int)
    (d : Date) (tid id1 id2 : Nat) (st : DbState) : DbState :=
  match transferLegs uid fromAcc toAcc amount d tid id1 id2 with
  | [leg1, leg2] => insertTransaction leg2 (insertTransaction leg1 st)
  | _ => st

/-- The row update performed by `reconcile_transaction`: only
`bank_reference`, `reconciliation_date` and `updated_at` change. -/
def reconcileRow (t : Tx) (bankRef : String) (recDate : Nat) (now : Nat) : Tx :=
  { t with
      bankReference := some bankRef
      reconciliationDate := some recDate
      updatedAt := now }

/-- `reconcile_transaction` from
`supabase/migrations/20251107000002_reconciliation_functions.sql`: update
the matching `transactions` row (firing the balance trigger on each
updated row) and append one audit record. -/
def reconcile_transaction (txId : Nat) (bankRef : String) (recDate : Nat)
    (now : Nat) (st : DbState) : DbState :=
  { txs := st.txs.map (fun t =>
      if t.id = txId then reconcileRow t bankRef recDate now else t)
    balances := st.txs.foldl (fun bal t =>
      if t.id = txId then
        update_account_balance (.update t (reconcileRow t bankRef recDate now)) bal
      else bal) st.balances
    audit := st.audit ++
      [{ operation := "RECONCILIATION", tableName := "transactions",
         recordId := txId, bankReference := bankRef,
         reconciliationDate := recDate }] }

/-! ## Billing-cycle scheduler -/

/-- The `type` column of `accounts`. -/
inductive AccountType
  | checking
  | savings
  | credit
  | investment
deriving DecidableEq, Repr

/-- A row of `public.accounts` as read by the scheduler: on accounts the
`closing_date` / `due_date` columns store a day-of-month number (possibly
NULL, possibly out of range — nothing validates them). -/
structure Account where
  id : Nat
  userId : Nat
  atype : AccountType
  closingDay : Option Int
  dueDay : Option Int
deriving DecidableEq, Repr

/-- The projection produced by the scheduler's cursor query:
`SELECT id, closing_date, due_date, user_id FROM accounts WHERE type =
'credit' AND closing_date IS NOT NULL AND due_date IS NOT NULL`. -/
structure CreditAccountRow where
  id : Nat
  userId : Nat
  closeDay : Int
  dueDay : Int
deriving DecidableEq, Repr

/-- Rows scanned by the scheduler loop. -/
def creditRows (accounts : List Account) : List CreditAccountRow :=
  accounts.filterMap (fun a =>
    match a.atype, a.closingDay, a.dueDay with
    | .credit, some cd, some dd => some ⟨a.id, a.userId, cd, dd⟩
    | _, _, _ => none)

/-- A row of `public.credit_bills`; `status` is the TEXT column with
values `"open"`, `"closed"`, `"paid"`. -/
structure Bill where
  userId : Nat
  accountId : Nat
  status : String
  startDate : Date
  closingDate : Date
  dueDate : Date
deriving DecidableEq, Repr

/-- `v_closing_date` of `manage_credit_bills`: day `closeDay` counted from
the first of the current month, rolled one month forward when today is
already past it. -/
def computeClosing (today : Date) (closeDay : Int) : Date :=
  let c0 := today.truncMonth.addDays (closeDay - 1)
  if Date.blt c0 today then c0.addMonth else c0

/-- `v_due_date` of `manage_credit_bills`. -/
def computeDue (closing : Date) (closeDay dueDay : Int) : Date :=
  let d0 := closing.truncMonth.addDays (dueDay - 1)
  if dueDay ≤ closeDay then d0.addMonth else d0

/-- `v_start_date` of `manage_credit_bills`: one day after the closing
date of the previous period. -/
def computeStart (closing : Date) : Date :=
  (closing.subMonth).nextDay

/-- Effect on one stored bill of the scheduler's close statement
(`UPDATE credit_bills SET status = 'closed' WHERE account_id = ... AND
status = 'open' AND closing_date <= today`). -/
def closeStep (today : Date) (accId : Nat) (b : Bill) : Bill :=
  if b.accountId == accId && b.status == "open" && Date.ble b.closingDate today
  then { b with status := "closed" } else b

/-- The next open bill the scheduler inserts for account `r`. -/
def nextBill (today : Date) (r : CreditAccountRow) : Bill :=
  { userId := r.userId, accountId := r.id, status := "open",
    startDate := computeStart (computeClosing today r.closeDay),
    closingDate := computeClosing today r.closeDay,
    dueDate := computeDue (computeClosing today r.closeDay) r.closeDay r.dueDay }

/-- One iteration of the `manage_credit_bills` loop: close every open
bill of this account whose closing date has passed, then insert the next
open bill unless a bill with the same (account, closing date) key exists
(`ON CONFLICT (account_id, closing_date) DO NOTHING`). -/
def processAccount (today : Date) (acc : CreditAccountRow)
    (bills : List Bill) : List Bill :=
  let closed := bills.map (closeStep today acc.id)
  if closed.any (fun b =>
      b.accountId == acc.id && b.closingDate == computeClosing today acc.closeDay)
  then closed
  else closed ++ [nextBill today acc]

/-- `public.manage_credit_bills()`, as a pure function from today's date
and the stored accounts and bills to the new stored bills. -/
def manage_credit_bills (today : Date) (accounts : List Account)
    (bills : List Bill) : List Bill :=
  (creditRows accounts).foldl (fun bs acc => processAccount today acc bs) bills

/-- The uniqueness key of `credit_bills`: `UNIQUE (account_id, closing_date)`. -/
def billKeys (bills : List Bill) : List (Nat × Date) :=
  bills.map (fun b => (b.accountId, b.closingDate))

/-- State of the stored bills after the scheduler has handled account
`r`: no open bill of `r` has a closing date in the past, and a bill with
the computed (account, closing date) key exists. -/
def accOK (today : Date) (r : CreditAccountRow) (bills : List Bill) : Prop :=
  (∀ b ∈ bills, b.accountId = r.id → b.status = "open" →
      Date.ble b.closingDate today = false)
  ∧ ∃ b ∈ bills, b.accountId = r.id ∧
      b.closingDate = computeClosing today r.closeDay

/-! ## Reporting aggregator -/

/-- A row of `public.categories` (the columns the report reads). -/
structure Category where
  id : Nat
  name : String
  color : Option String
deriving DecidableEq, Repr

/-- The WHERE clause building `temp_cash_flow_txs`: rows of the user, in
the inclusive date range, settled, of income/expense type, and flagged
`include_in_reports`. -/
def cashFlowFilter (uid : Nat) (startDate endDate : Date) (t : Tx) : Bool :=
  t.userId == uid
    && Date.ble startDate t.date
    && Date.ble t.date endDate
    && t.isPaid
    && (t.ttype == TxType.income || t.ttype == TxType.expense)
    && t.includeInReports

/-- `totals.income`: `SUM(CASE WHEN type = 'income' THEN amount ELSE 0 END)`. -/
def totalsIncome (l : List Tx) : Int :=
  (l.map (fun t => if t.ttype == TxType.income then t.amount else 0)).sum

/-- `totals.expenses`: `SUM(CASE WHEN type = 'expense' THEN ABS(amount)
ELSE 0 END)`. -/
def totalsExpenses (l : List Tx) : Int :=
  (l.map (fun t => if t.ttype == TxType.expense then |t.amount| else 0)).sum

/-- One element of the `categories` array of the report. -/
structure CatRow where
  category : String
  fill : String
  amount : Int
  transactions : Nat
  percentage : Int
deriving DecidableEq, Repr

/-- The inner join of expense rows with `categories` on `category_id`. -/
def catJoin (cats : List Category) (l : List Tx) : List (Tx × Category) :=
  l.filterMap (fun t =>
    if t.ttype == TxType.expense then
      match t.categoryId with
      | some cid => (cats.find? (fun c => c.id == cid)).map (fun c => (t, c))
      | none => none
    else none)

/-- The `categories` array: expense totals grouped by (name, color), with
`percentage` computed against `COALESCE(SUM(amount), 1)` (BIGINT
arithmetic, so integer division). -/
def categoriesReport (cats : List Category) (l : List Tx) : List CatRow :=
  let pairs := catJoin cats l
  let keys := (pairs.map (fun p => (p.2.name, p.2.color))).dedup
  let pre := keys.map (fun k =>
    let sub := pairs.filter (fun p => (p.2.name, p.2.color) == k)
    (k, |((sub.map (fun p => p.1.amount)).sum)|, sub.length))
  let total : Int := if pre.isEmpty then 1 else (pre.map (fun r => r.2.1)).sum
  pre.map (fun r =>
    { category := r.1.1, fill := r.1.2.getD "#8884d8", amount := r.2.1,
      transactions := r.2.2, percentage := r.2.1 / total * 100 })

/-- Strict chronological order on month buckets (year, month). -/
def monthLt (a b : Nat × Nat) : Prop :=
  a.1 < b.1 ∨ (a.1 = b.1 ∧ a.2 < b.2)

/-- Insert a month key into an ascending duplicate-free list of keys. -/
def monthInsert (k : Nat × Nat) : List (Nat × Nat) → List (Nat × Nat)
  | [] => [k]
  | h :: tl =>
      if k = h then h :: tl
      else if k.1 < h.1 ∨ (k.1 = h.1 ∧ k.2 < h.2) then k :: h :: tl
      else h :: monthInsert k tl

/-- The distinct `date_trunc('month', date)` keys of the filtered rows in
ascending order (the `GROUP BY` plus `ORDER BY month_start ASC`). -/
def monthKeysSorted (l : List Tx) : List (Nat × Nat) :=
  l.foldr (fun t acc => monthInsert (t.date.year, t.date.month) acc) []

/-- One element of the `monthly` array (`month_key` is the bucket's
(year, month); the source renders it as `YYYY-MM` text). -/
structure MonthRow where
  monthKey : Nat × Nat
  income : Int
  expenses : Int
  balance : Int
deriving DecidableEq, Repr

/-- The `monthly` array: per-month income, `ABS` of the expense sum and
net balance, ascending by month, `LIMIT 12`. -/
def monthlyReport (l : List Tx) : List MonthRow :=
  ((monthKeysSorted l).take 12).map (fun k =>
    let sub := l.filter (fun t => (t.date.year, t.date.month) == k)
    let inc := (sub.map (fun t => if t.ttype == TxType.income then t.amount else 0)).sum
    let exp := |((sub.map (fun t => if t.ttype == TxType.expense then t.amount else 0)).sum)|
    { monthKey := k, income := inc, expenses := exp, balance := inc - exp })

/-- The JSON result of `get_analytics_report`. -/
structure Report where
  income : Int
  expenses : Int
  categories : List CatRow
  monthly : List MonthRow
deriving DecidableEq, Repr

/-- `public.get_analytics_report(p_user_id, p_start_date, p_end_date)`
(the canonical TEXT-date/`is_paid` revision), over the stored
`transactions` and `categories` rows. -/
def get_analytics_report (uid : Nat) (startDate endDate : Date)
    (cats : List Category) (txs : List Tx) : Report :=
  let l := txs.filter (cashFlowFilter uid startDate endDate)
  { income := totalsIncome l, expenses := totalsExpenses l,
    categories := categoriesReport cats l, monthly := monthlyReport l }

/-! ## Concrete instances used in the claim analyses -/

/-- A ledger row with the given core fields and default bookkeeping
fields (no transfer group, no bank reference). -/
def mkTx (rid uid acc : Nat) (toAcc : Option Nat) (amt : Int) (ty : TxType)
    (paid : Bool) (d : Date) (cat : Option Nat) (rep : Bool) : Tx :=
  { id := rid, userId := uid, accountId := acc, toAccountId := toAcc,
    amount := amt, ttype := ty, isPaid := paid, date := d, categoryId := cat,
    includeInReports := rep, transferId := none, description := "",
    bankReference := none, reconciliationDate := none, updatedAt := 0 }

/-- An empty database state with all balances zero. -/
def emptyState : DbState := { txs := [], balances := fun _ => 0, audit := [] }

/-- A settled transfer row from account 0 to counter-account 1 over 100
cents (insert/delete of such a row is the case the trigger misses). -/
def c1transfer : Tx := mkTx 1 0 0 (some 1) 100 .transfer true ⟨2025, 1, 10⟩ none true

/-- Unsettled expense of 2500 cents on account 0. -/
def c1pending : Tx := mkTx 2 0 0 none 2500 .expense false ⟨2025, 1, 11⟩ none true

/-- The same row settled. -/
def c1settled : Tx := mkTx 2 0 0 none 2500 .expense true ⟨2025, 1, 11⟩ none true

/-- A settled self-transfer (counter-account equal to the primary
account) over 1000 cents. -/
def c2selfOld : Tx := mkTx 3 0 0 (some 0) 1000 .transfer true ⟨2025, 2, 1⟩ none true

/-- The same self-transfer row with its amount edited to 1500. -/
def c2selfNew : Tx := mkTx 3 0 0 (some 0) 1500 .transfer true ⟨2025, 2, 1⟩ none true

/-- A settled expense of 1000 cents on account 0. -/
def c2old : Tx := mkTx 4 0 0 none 1000 .expense true ⟨2025, 2, 2⟩ none true

/-- The same row with its amount edited to 1500. -/
def c2new : Tx := mkTx 4 0 0 none 1500 .expense true ⟨2025, 2, 2⟩ none true

/-- A settled transfer row from account 0 to counter-account 1 over 100
cents, for the counter-account analysis. -/
def c3transfer : Tx := mkTx 5 0 0 (some 1) 100 .transfer true ⟨2025, 3, 1⟩ none true

/-- A settled transfer from account 10 to counter-account 2 over 700. -/
def c3old : Tx := mkTx 6 0 10 (some 2) 700 .transfer true ⟨2025, 3, 2⟩ none true

/-- The same row moved to account 11 and counter-account 3, amount 900. -/
def c3new : Tx := mkTx 6 0 11 (some 3) 900 .transfer true ⟨2025, 3, 2⟩ none true

/-- A credit account with close-day 5 and due-day 15. -/
def closeDay5Account : Account := ⟨7, 3, .credit, some 5, some 15⟩

/-- A credit account whose billing-day configuration is malformed:
day-of-month 0. -/
def badDayAccount : Account := ⟨8, 3, .credit, some 0, some 15⟩

/-- Thirteen settled, report-included income rows of user 0, one per
month from January 2024 to January 2025. -/
def thirteenMonthsTxs : List Tx :=
  [mkTx 1 0 0 none 100 .income true ⟨2024, 1, 15⟩ none true,
   mkTx 2 0 0 none 100 .income true ⟨2024, 2, 15⟩ none true,
   mkTx 3 0 0 none 100 .income true ⟨2024, 3, 15⟩ none true,
   mkTx 4 0 0 none 100 .income true ⟨2024, 4, 15⟩ none true,
   mkTx 5 0 0 none 100 .income true ⟨2024, 5, 15⟩ none true,
   mkTx 6 0 0 none 100 .income true ⟨2024, 6, 15⟩ none true,
   mkTx 7 0 0 none 100 .income true ⟨2024, 7, 15⟩ none true,
   mkTx 8 0 0 none 100 .income true ⟨2024, 8, 15⟩ none true,
   mkTx 9 0 0 none 100 .income true ⟨2024, 9, 15⟩ none true,
   mkTx 10 0 0 none 100 .income true ⟨2024, 10, 15⟩ none true,
   mkTx 11 0 0 none 100 .income true ⟨2024, 11, 15⟩ none true,
   mkTx 12 0 0 none 100 .income true ⟨2024, 12, 15⟩ none true,
   mkTx 13 0 0 none 100 .income true ⟨2025, 1, 15⟩ none true]

/-- The January 2025 row of `thirteenMonthsTxs`. -/
def jan2025Tx : Tx := mkTx 13 0 0 none 100 .income true ⟨2025, 1, 15⟩ none true

/-! ## Lemmas: pointwise evaluation of the trigger -/

theorem addBal_apply (bal : Balances) (c : Nat) (v : Int) (a : Nat) :
    addBal bal c v a = bal a + (if a = c then v else 0) := by
  unfold addBal
  split <;> simp

theorem balance_insert_apply (n : Tx) (bal : Balances) (a : Nat) :
    update_account_balance (.insert n) bal a =
      bal a + (if a = n.accountId then (if n.isPaid then n.amount else 0) else 0) := by
  simp [update_account_balance, addBal_apply]

theorem balance_delete_apply (o : Tx) (bal : Balances) (a : Nat) :
    update_account_balance (.delete o) bal a =
      bal a + (if a = o.accountId then (if o.isPaid then -o.amount else 0) else 0) := by
  simp [update_account_balance, addBal_apply]

set_option maxHeartbeats 1000000 in
theorem balance_update_apply (o n : Tx) (bal : Balances) (a : Nat) :
    update_account_balance (.update o n) bal a =
      bal a
        + (if a = o.accountId then (if o.isPaid then -o.amount else 0) else 0)
        + (if a = n.accountId then (if n.isPaid then n.amount else 0) else 0)
        + (if o.ttype = .transfer ∧ o.toAccountId = some a then
             (if o.isPaid then o.amount else 0) else 0)
        + (if n.ttype = .transfer ∧ n.toAccountId = some a then
             (if n.isPaid then -n.amount else 0) else 0) := by
  rcases ho : o.toAccountId with _ | co <;> rcases hn : n.toAccountId with _ | cn <;>
  by_cases hot : o.ttype = TxType.transfer <;>
  by_cases hnt : n.ttype = TxType.transfer <;>
  by_cases hacc : o.accountId = n.accountId <;>
  simp only [update_account_balance, ho, hn, hot, hnt, hacc, ite_apply,
    addBal_apply, Option.some.injEq, if_true, if_false, ite_true, ite_false,
    false_and, and_false, true_and, and_true, eq_self_iff_true, not_false_iff,
    reduceCtorEq] <;>
  split_ifs <;> omega

theorem ledgerBalance_append (a : Nat) (txs l : List Tx) :
    ledgerBalance a (txs ++ l) = ledgerBalance a txs + ledgerBalance a l := by
  simp [ledgerBalance]

theorem ledgerBalance_erase (a : Nat) (o : Tx) (txs : List Tx) (h : o ∈ txs) :
    ledgerBalance a (txs.erase o) = ledgerBalance a txs - contrib a o := by
  have hp : txs.Perm (o :: txs.erase o) := List.perm_cons_erase h
  have hs := (hp.map (contrib a)).sum_eq
  simp only [List.map_cons, List.sum_cons] at hs
  simp only [ledgerBalance]
  omega

theorem ledgerBalance_singleton (a : Nat) (t : Tx) :
    ledgerBalance a [t] = contrib a t := by
  simp [ledgerBalance]

theorem contrib_split (a : Nat) (t : Tx) :
    contrib a t =
      (if a = t.accountId then (if t.isPaid = true then t.amount else 0) else 0)
        - (if t.ttype = .transfer ∧ t.toAccountId = some a then
             (if t.isPaid = true then t.amount else 0) else 0) := by
  unfold contrib
  split_ifs <;> simp_all <;> omega

theorem consistent_insert (bal : Balances) (txs : List Tx) (n : Tx)
    (hc : consistent bal txs) (hn : ¬ settledCounterTransfer n) :
    consistent (update_account_balance (.insert n) bal) (applyLedger (.insert n) txs) := by
  intro a
  unfold settledCounterTransfer at hn
  rw [applyLedger, ledgerBalance_append, ledgerBalance_singleton,
    balance_insert_apply, hc a, contrib_split]
  split_ifs <;> simp_all <;> omega

theorem consistent_delete (bal : Balances) (txs : List Tx) (o : Tx)
    (hc : consistent bal txs) (hmem : o ∈ txs) (ho : ¬ settledCounterTransfer o) :
    consistent (update_account_balance (.delete o) bal) (applyLedger (.delete o) txs) := by
  intro a
  unfold settledCounterTransfer at ho
  rw [applyLedger, balance_delete_apply, hc a,
    ledgerBalance_erase a o txs hmem, contrib_split]
  split_ifs <;> simp_all <;> omega

theorem consistent_update (bal : Balances) (txs : List Tx) (o n : Tx)
    (hc : consistent bal txs) (hmem : o ∈ txs) :
    consistent (update_account_balance (.update o n) bal) (applyLedger (.update o n) txs) := by
  intro a
  rw [applyLedger, ledgerBalance_append, ledgerBalance_singleton,
    balance_update_apply, hc a, ledgerBalance_erase a o txs hmem,
    contrib_split a o, contrib_split a n]
  split_ifs <;> omega

theorem consistent_run (es : List TxEvent) (txs : List Tx) (bal : Balances)
    (hc : consistent bal txs) (hok : okEvents txs es) :
    consistent (applyAll es txs bal).2 (applyAll es txs bal).1 := by
  induction es generalizing txs bal with
  | nil => exact hc
  | cons e es ih =>
      rcases hok with ⟨he, hes⟩
      refine ih _ _ ?_ hes
      cases e with
      | insert n => exact consistent_insert bal txs n hc he
      | delete o => exact consistent_delete bal txs o hc he.1 he.2
      | update o n => exact consistent_update bal txs o n hc he

theorem reconcile_trigger_no_delta (t : Tx) (bankRef : String)
    (recDate now : Nat) (bal : Balances) :
    update_account_balance (.update t (reconcileRow t bankRef recDate now)) bal = bal := by
  funext a
  rw [balance_update_apply]
  simp only [reconcileRow]
  split_ifs <;> omega


/-! ## Lemmas: date order and date arithmetic -/

theorem Date.ble_iff (a b : Date) :
    Date.ble a b = true ↔
      a.year < b.year ∨ (a.year = b.year ∧
        (a.month < b.month ∨ (a.month = b.month ∧ a.day ≤ b.day))) := by
  unfold Date.ble
  simp only [Bool.or_eq_true, Bool.and_eq_true, Nat.blt_eq, Nat.ble_eq, beq_iff_eq]

theorem Date.blt_iff (a b : Date) :
    Date.blt a b = true ↔
      a.year < b.year ∨ (a.year = b.year ∧
        (a.month < b.month ∨ (a.month = b.month ∧ a.day < b.day))) := by
  unfold Date.blt
  simp only [Bool.or_eq_true, Bool.and_eq_true, Nat.blt_eq, beq_iff_eq]

theorem Date.ble_false_iff (a b : Date) :
    Date.ble a b = false ↔ Date.blt b a = true := by
  rw [← Bool.not_eq_true, Date.ble_iff, Date.blt_iff]
  omega

theorem Date.blt_mk (y1 m1 d1 y2 m2 d2 : Nat) :
    Date.blt ⟨y1, m1, d1⟩ ⟨y2, m2, d2⟩ = true ↔
      y1 < y2 ∨ (y1 = y2 ∧ (m1 < m2 ∨ (m1 = m2 ∧ d1 < d2))) := by
  rw [Date.blt_iff]

theorem daysInMonth_ge (y m : Nat) : 28 ≤ daysInMonth y m := by
  unfold daysInMonth
  split_ifs <;> omega

theorem addDaysNat_within (y m d k : Nat) (h : d + k ≤ daysInMonth y m) :
    Date.addDaysNat ⟨y, m, d⟩ k = ⟨y, m, d + k⟩ := by
  induction k with
  | zero => rfl
  | succ k ih =>
      rw [Date.addDaysNat, ih (by omega), Date.nextDay]
      simp only
      rw [if_pos (by omega), Nat.add_assoc]

/-! ## Lemmas: scheduler invariants -/

theorem closeStep_fields (today : Date) (accId : Nat) (b : Bill) :
    (closeStep today accId b).accountId = b.accountId
  ∧ (closeStep today accId b).closingDate = b.closingDate
  ∧ (closeStep today accId b).userId = b.userId := by
  unfold closeStep
  split <;> simp

theorem map_id_of_fix {α : Type} (f : α → α) (l : List α)
    (h : ∀ x ∈ l, f x = x) : l.map f = l := by
  induction l with
  | nil => rfl
  | cons x l ih =>
      simp only [List.map_cons]
      rw [h x (by simp), ih (fun y hy => h y (by simp [hy]))]

theorem processAccount_of_accOK (today : Date) (r : CreditAccountRow)
    (bills : List Bill) (h : accOK today r bills) :
    processAccount today r bills = bills := by
  obtain ⟨hclosed, b0, hb0, hb0acc, hb0close⟩ := h
  have hmap : bills.map (closeStep today r.id) = bills := by
    apply map_id_of_fix
    intro b hb
    unfold closeStep
    by_cases h1 : b.accountId = r.id
    · by_cases h2 : b.status = "open"
      · simp [h1, h2, hclosed b hb h1 h2]
      · simp [h2]
    · simp [h1]
  have hany : bills.any (fun b =>
      b.accountId == r.id && b.closingDate == computeClosing today r.closeDay) = true :=
    List.any_eq_true.mpr ⟨b0, hb0, by simp [hb0acc, hb0close]⟩
  simp only [processAccount, hmap, hany, if_true]

theorem mem_processAccount (today : Date) (r : CreditAccountRow)
    (bills : List Bill) (b : Bill) (hb : b ∈ processAccount today r bills) :
    (∃ b0 ∈ bills, b = closeStep today r.id b0) ∨ b = nextBill today r := by
  simp only [processAccount] at hb
  split at hb
  · obtain ⟨b0, hb0, hfb⟩ := List.mem_map.mp hb
    exact Or.inl ⟨b0, hb0, hfb.symm⟩
  · rcases List.mem_append.mp hb with hl | hr
    · obtain ⟨b0, hb0, hfb⟩ := List.mem_map.mp hl
      exact Or.inl ⟨b0, hb0, hfb.symm⟩
    · exact Or.inr (List.mem_singleton.mp hr)

theorem closeStep_open_bound (today : Date) (accId : Nat) (b0 b : Bill)
    (hb : b = closeStep today accId b0) (hacc : b.accountId = accId)
    (hopen : b.status = "open") : Date.ble b.closingDate today = false := by
  unfold closeStep at hb
  by_cases hcond : (b0.accountId == accId && b0.status == "open"
      && Date.ble b0.closingDate today) = true
  · rw [if_pos hcond] at hb
    rw [hb] at hopen
    simp at hopen
  · rw [if_neg hcond] at hb
    subst hb
    simp only [Bool.and_eq_true, beq_iff_eq, not_and, and_imp] at hcond
    cases hble : Date.ble b.closingDate today with
    | false => rfl
    | true => exact absurd hble (hcond hacc hopen)

theorem processAccount_establishes (today : Date) (r : CreditAccountRow)
    (bills : List Bill)
    (hroll : Date.blt today (computeClosing today r.closeDay) = true) :
    accOK today r (processAccount today r bills) := by
  constructor
  · intro b hb hbacc hbopen
    rcases mem_processAccount today r bills b hb with ⟨b0, _, heq⟩ | hnew
    · exact closeStep_open_bound today r.id b0 b heq hbacc hbopen
    · rw [hnew]
      show Date.ble (computeClosing today r.closeDay) today = false
      rw [Date.ble_false_iff]
      exact hroll
  · simp only [processAccount]
    split
    · next hany =>
        obtain ⟨b0, hb0, hcond⟩ := List.any_eq_true.mp hany
        simp only [Bool.and_eq_true, beq_iff_eq] at hcond
        exact ⟨b0, hb0, hcond.1, hcond.2⟩
    · exact ⟨nextBill today r, by simp, rfl, rfl⟩

theorem processAccount_preserves_accOK (today : Date) (r r2 : CreditAccountRow)
    (bills : List Bill) (h : accOK today r bills)
    (hroll2 : Date.blt today (computeClosing today r2.closeDay) = true) :
    accOK today r (processAccount today r2 bills) := by
  obtain ⟨hclosed, b0, hb0, hb0acc, hb0close⟩ := h
  constructor
  · intro b hb hbacc hbopen
    rcases mem_processAccount today r2 bills b hb with ⟨b1, hb1, heq⟩ | hnew
    · by_cases hcond : (b1.accountId == r2.id && b1.status == "open"
          && Date.ble b1.closingDate today) = true
      · rw [heq] at hbopen
        unfold closeStep at hbopen
        rw [if_pos hcond] at hbopen
        simp at hbopen
      · have hb1b : b = b1 := by
          rw [heq]; unfold closeStep; rw [if_neg hcond]
        rw [hb1b] at hbacc hbopen ⊢
        exact hclosed b1 hb1 hbacc hbopen
    · rw [hnew]
      show Date.ble (computeClosing today r2.closeDay) today = false
      rw [Date.ble_false_iff]
      exact hroll2
  · refine ⟨closeStep today r2.id b0, ?_, ?_, ?_⟩
    · simp only [processAccount]
      split
      · exact List.mem_map_of_mem _ hb0
      · exact List.mem_append_left _ (List.mem_map_of_mem _ hb0)
    · rw [(closeStep_fields today r2.id b0).1, hb0acc]
    · rw [(closeStep_fields today r2.id b0).2.1, hb0close]

theorem fold_preserves_accOK (today : Date) (r : CreditAccountRow)
    (rows : List CreditAccountRow) (bills : List Bill)
    (h : accOK today r bills)
    (hall : ∀ x ∈ rows, Date.blt today (computeClosing today x.closeDay) = true) :
    accOK today r (rows.foldl (fun bs acc => processAccount today acc bs) bills) := by
  induction rows generalizing bills with
  | nil => exact h
  | cons x rows ih =>
      simp only [List.foldl_cons]
      exact ih (processAccount today x bills)
        (processAccount_preserves_accOK today r x bills h (hall x (by simp)))
        (fun y hy => hall y (by simp [hy]))

theorem fold_establishes_accOK (today : Date) (rows : List CreditAccountRow)
    (bills : List Bill)
    (hall : ∀ x ∈ rows, Date.blt today (computeClosing today x.closeDay) = true) :
    ∀ r ∈ rows, accOK today r
      (rows.foldl (fun bs acc => processAccount today acc bs) bills) := by
  induction rows generalizing bills with
  | nil => intro r hr; cases hr
  | cons x rows ih =>
      intro r hr
      simp only [List.foldl_cons]
      rcases List.mem_cons.mp hr with hrx | hrtail
      · subst hrx
        exact fold_preserves_accOK today r rows (processAccount today r bills)
          (processAccount_establishes today r bills (hall r (by simp)))
          (fun y hy => hall y (by simp [hy]))
      · exact ih (processAccount today x bills)
          (fun y hy => hall y (by simp [hy])) r hrtail

theorem fold_identity_of_accOK (today : Date) (rows : List CreditAccountRow)
    (bills : List Bill) (h : ∀ r ∈ rows, accOK today r bills) :
    rows.foldl (fun bs acc => processAccount today acc bs) bills = bills := by
  induction rows with
  | nil => rfl
  | cons x rows ih =>
      simp only [List.foldl_cons]
      rw [processAccount_of_accOK today x bills (h x (by simp))]
      exact ih (fun r hr => h r (by simp [hr]))

theorem manage_credit_bills_idem (today : Date) (accounts : List Account)
    (bills : List Bill)
    (hroll : ∀ r ∈ creditRows accounts,
        Date.blt today (computeClosing today r.closeDay) = true) :
    manage_credit_bills today accounts (manage_credit_bills today accounts bills)
      = manage_credit_bills today accounts bills := by
  unfold manage_credit_bills
  exact fold_identity_of_accOK today (creditRows accounts) _
    (fold_establishes_accOK today (creditRows accounts) bills hroll)

theorem billKeys_processAccount (today : Date) (r : CreditAccountRow)
    (bills : List Bill) (h : (billKeys bills).Nodup) :
    (billKeys (processAccount today r bills)).Nodup := by
  have hkeys : billKeys (bills.map (closeStep today r.id)) = billKeys bills := by
    unfold billKeys
    rw [List.map_map]
    apply List.map_congr_left
    intro b _
    simp only [Function.comp_apply, (closeStep_fields today r.id b).1,
      (closeStep_fields today r.id b).2.1]
  simp only [processAccount]
  split
  · rw [hkeys]; exact h
  · next hany =>
      have hf : (bills.map (closeStep today r.id)).any (fun b =>
          b.accountId == r.id
            && b.closingDate == computeClosing today r.closeDay) = false := by
        revert hany
        cases (bills.map (closeStep today r.id)).any (fun b =>
            b.accountId == r.id
              && b.closingDate == computeClosing today r.closeDay) <;> simp
      have happ : billKeys (bills.map (closeStep today r.id) ++ [nextBill today r])
          = billKeys bills ++ [(r.id, computeClosing today r.closeDay)] := by
        unfold billKeys at hkeys ⊢
        rw [List.map_append, hkeys]
        rfl
      rw [happ]
      refine List.Nodup.append h (by simp) ?_
      intro k hk hk2
      simp only [List.mem_singleton] at hk2
      obtain ⟨b1, hb1, hbk⟩ := List.mem_map.mp hk
      have hmem : closeStep today r.id b1 ∈ bills.map (closeStep today r.id) :=
        List.mem_map_of_mem _ hb1
      have hstep := List.any_eq_false.mp hf _ hmem
      apply hstep
      simp only [Bool.and_eq_true, beq_iff_eq,
        (closeStep_fields today r.id b1).1, (closeStep_fields today r.id b1).2.1]
      rw [hk2] at hbk
      exact ⟨(Prod.ext_iff.mp hbk).1, (Prod.ext_iff.mp hbk).2⟩

theorem billKeys_manage_nodup (today : Date) (accounts : List Account)
    (bills : List Bill) (h : (billKeys bills).Nodup) :
    (billKeys (manage_credit_bills today accounts bills)).Nodup := by
  unfold manage_credit_bills
  induction creditRows accounts generalizing bills with
  | nil => exact h
  | cons x rows ih =>
      simp only [List.foldl_cons]
      exact ih (processAccount today x bills)
        (billKeys_processAccount today x bills h)

/-! ## Lemmas: monthly buckets -/

theorem monthLt_trans {a b c : Nat × Nat} (h1 : monthLt a b) (h2 : monthLt b c) :
    monthLt a c := by
  unfold monthLt at *
  omega

theorem monthInsert_mem (k x : Nat × Nat) (l : List (Nat × Nat)) :
    x ∈ monthInsert k l ↔ x = k ∨ x ∈ l := by
  induction l with
  | nil => simp [monthInsert]
  | cons h tl ih =>
      unfold monthInsert
      split_ifs with h1 h2
      · rw [h1]
        simp [List.mem_cons]
        try tauto
      · simp [List.mem_cons]
        try tauto
      · simp [List.mem_cons, ih]
        try tauto

theorem monthInsert_pairwise (k : Nat × Nat) (l : List (Nat × Nat))
    (hs : l.Pairwise monthLt) : (monthInsert k l).Pairwise monthLt := by
  induction l with
  | nil => simp [monthInsert, List.pairwise_cons]
  | cons h tl ih =>
      rcases List.pairwise_cons.mp hs with ⟨hh, htl⟩
      unfold monthInsert
      split_ifs with h1 h2
      · exact hs
      · apply List.pairwise_cons.mpr
        refine ⟨?_, hs⟩
        intro x hx
        rcases List.mem_cons.mp hx with rfl | hxtl
        · exact h2
        · exact monthLt_trans h2 (hh x hxtl)
      · apply List.pairwise_cons.mpr
        constructor
        · intro x hx
          rcases (monthInsert_mem k x tl).mp hx with rfl | hxtl
          · have h1x : ¬ (x.1 = h.1 ∧ x.2 = h.2) := fun hc => h1 (Prod.ext_iff.mpr hc)
            unfold monthLt
            omega
          · exact hh x hxtl
        · exact ih htl

theorem mem_monthKeysSorted (l : List Tx) (k : Nat × Nat) :
    k ∈ monthKeysSorted l ↔ ∃ t ∈ l, (t.date.year, t.date.month) = k := by
  unfold monthKeysSorted
  induction l with
  | nil => simp
  | cons t tl ih =>
      simp only [List.foldr_cons, monthInsert_mem, ih, List.mem_cons,
        exists_eq_or_imp]
      tauto

theorem monthKeysSorted_pairwise (l : List Tx) :
    (monthKeysSorted l).Pairwise monthLt := by
  unfold monthKeysSorted
  induction l with
  | nil => simp
  | cons t tl ih => exact monthInsert_pairwise _ _ ih

theorem monthlyReport_keys (l : List Tx) :
    (monthlyReport l).map MonthRow.monthKey = (monthKeysSorted l).take 12 := by
  unfold monthlyReport
  rw [List.map_map]
  exact List.map_id _

/-! ## Claim C1 -/

/-- C1 (amended): starting from a consistent state, any sequence of
Insert/Update/Delete ledger events preserves the balance invariant
(cached balance = settled primary contributions minus settled transfer
counter-account contributions), provided no Insert or Delete event
carries a settled transfer row with a counter-account — the trigger's
INSERT and DELETE branches never touch counter-accounts, so such events
break the invariant (see the counterexample).  Update events are
unrestricted. -/
theorem balance_invariant_preserved (es : List TxEvent) (txs : List Tx)
    (bal : Balances) (hc : consistent bal txs) (hok : okEvents txs es) :
    consistent (applyAll es txs bal).2 (applyAll es txs bal).1 :=
  consistent_run es txs bal hc hok

/-- Witness: inserting an unsettled expense of 2500, settling it by
update, then deleting it keeps the cached balances consistent with the
ledger. -/
theorem balance_invariant_preserved_witness :
    consistent
      (applyAll [TxEvent.insert c1pending, TxEvent.update c1pending c1settled,
        TxEvent.delete c1settled] [] (fun _ => 0)).2
      (applyAll [TxEvent.insert c1pending, TxEvent.update c1pending c1settled,
        TxEvent.delete c1settled] [] (fun _ => 0)).1 := by
  apply balance_invariant_preserved
  · intro a
    rfl
  · simp [okEvents, okEvent, applyLedger, settledCounterTransfer,
      c1pending, c1settled, mkTx]

/-- Counterexample to C1 as literally stated: from the consistent empty
state, inserting a settled transfer of 100 from account 0 to
counter-account 1 leaves account 1's cached balance at 0 while the
ledger-derived balance of account 1 is -100 — the INSERT branch of the
trigger never updates the counter-account. -/
theorem balance_invariant_counterexample :
    consistent (fun _ => 0) []
  ∧ ¬ consistent (applyAll [TxEvent.insert c1transfer] [] (fun _ => 0)).2
        (applyAll [TxEvent.insert c1transfer] [] (fun _ => 0)).1 := by
  constructor
  · intro a
    rfl
  · intro h
    have h1 := h 1
    simp [applyAll, applyLedger, update_account_balance, addBal,
      ledgerBalance, contrib, c1transfer, mkTx] at h1

/-! ## Claim C2 -/

/-- C2 (amended): for an Update event that keeps the account reference,
the trigger changes that account's balance by exactly
(new.amount if new.paid else 0) - (old.amount if old.paid else 0),
provided neither the old nor the new row is a transfer whose
counter-account is that same account (for such degenerate self-transfers
the four balance updates cancel — see the counterexample); moreover the
reverse update restores every account's balance, so an
unsettled→settled→unsettled round trip leaves all balances unchanged. -/
theorem update_same_account_delta (o n : Tx) (bal : Balances) (a : Nat)
    (hoa : o.accountId = a) (hna : n.accountId = a)
    (hot : ¬ (o.ttype = TxType.transfer ∧ o.toAccountId = some a))
    (hnt : ¬ (n.ttype = TxType.transfer ∧ n.toAccountId = some a)) :
    update_account_balance (.update o n) bal a
        = bal a + ((if n.isPaid = true then n.amount else 0)
            - (if o.isPaid = true then o.amount else 0))
  ∧ ∀ b, update_account_balance (.update n o)
        (update_account_balance (.update o n) bal) b = bal b := by
  constructor
  · rw [balance_update_apply]
    rw [if_neg hot, if_neg hnt, if_pos hoa.symm, if_pos hna.symm]
    split_ifs <;> omega
  · intro b
    rw [balance_update_apply, balance_update_apply]
    split_ifs <;> omega

/-- Witness: editing a settled expense on account 0 from 1000 to 1500
changes account 0's balance by exactly +500 (10000 → 10500), and
applying the reverse edit restores the original balance. -/
theorem update_same_account_delta_witness :
    update_account_balance (.update c2old c2new) (fun _ => 10000) 0 = 10500
  ∧ ∀ b, update_account_balance (.update c2new c2old)
      (update_account_balance (.update c2old c2new) (fun _ => 10000)) b
        = (fun _ => (10000 : Int)) b := by
  have h := update_same_account_delta c2old c2new (fun _ => 10000) 0
    rfl rfl (by decide) (by decide)
  refine ⟨?_, h.2⟩
  rw [h.1]
  decide

/-- Counterexample to C2 as literally stated: for a settled self-transfer
(counter-account equal to the primary account) whose amount is edited
from 1000 to 1500, the four balance updates of the trigger cancel and the
account's balance changes by 0, not by +500. -/
theorem update_same_account_delta_counterexample :
    update_account_balance (.update c2selfOld c2selfNew) (fun _ => 10000) 0
        = 10000
  ∧ ¬ (update_account_balance (.update c2selfOld c2selfNew)
        (fun _ => 10000) 0 = 10500) := by
  constructor
  · decide
  · decide

/-! ## Claim C3 -/

/-- C3 (amended): only the UPDATE branch of the balance trigger applies
the negation of the settled contribution to counter-accounts — the old
counter-account of a transfer receives +old.amount (minus the old
contribution) and the new counter-account receives -new.amount — while
the INSERT and DELETE branches update only the primary account and leave
every other account, in particular any counter-account, untouched. -/
theorem counter_account_only_on_update (o n t : Tx) (bal : Balances)
    (co cn b : Nat)
    (hot : o.ttype = TxType.transfer) (hoc : o.toAccountId = some co)
    (hnt : n.ttype = TxType.transfer) (hnc : n.toAccountId = some cn)
    (hco1 : co ≠ o.accountId) (hco2 : co ≠ n.accountId) (hcocn : co ≠ cn)
    (hcn1 : cn ≠ o.accountId) (hcn2 : cn ≠ n.accountId)
    (hb : b ≠ t.accountId) :
    update_account_balance (.update o n) bal co
        = bal co + (if o.isPaid = true then o.amount else 0)
  ∧ update_account_balance (.update o n) bal cn
        = bal cn - (if n.isPaid = true then n.amount else 0)
  ∧ update_account_balance (.insert t) bal b = bal b
  ∧ update_account_balance (.delete t) bal b = bal b := by
  refine ⟨?_, ?_, ?_, ?_⟩
  · rw [balance_update_apply]
    simp only [hot, hnt, hoc, hnc, Option.some.injEq]
    split_ifs <;> simp_all <;> omega
  · rw [balance_update_apply]
    simp only [hot, hnt, hoc, hnc, Option.some.injEq]
    split_ifs <;> simp_all <;> omega
  · rw [balance_insert_apply, if_neg hb]
    omega
  · rw [balance_delete_apply, if_neg hb]
    omega

/-- Witness: updating a settled transfer (700 from account 10 to
counter-account 2) into a settled transfer of 900 from account 11 to
counter-account 3 adds +700 to account 2 and -900 to account 3, while
inserting or deleting a settled transfer with counter-account 1 leaves
account 1 untouched. -/
theorem counter_account_only_on_update_witness :
    update_account_balance (.update c3old c3new) (fun _ => 0) 2 = 0 + 700
  ∧ update_account_balance (.update c3old c3new) (fun _ => 0) 3 = 0 - 900
  ∧ update_account_balance (.insert c3transfer) (fun _ => 0) 1 = 0
  ∧ update_account_balance (.delete c3transfer) (fun _ => 0) 1 = 0 := by
  have h := counter_account_only_on_update c3old c3new c3transfer
    (fun _ => 0) 2 3 1 rfl rfl rfl rfl
    (by decide) (by decide) (by decide) (by decide) (by decide) (by decide)
  refine ⟨?_, ?_, h.2.2.1, h.2.2.2⟩
  · rw [h.1]
    decide
  · rw [h.2.1]
    decide

/-- Counterexample to C3 as literally stated: inserting a settled
transfer of 100 from account 0 with counter-account 1 leaves account 1's
balance unchanged (0), instead of applying the negated contribution
-100 — the INSERT branch has no counter-account update. -/
theorem counter_account_only_on_update_counterexample :
    update_account_balance (.insert c3transfer) (fun _ => 0) 1 = 0
  ∧ ¬ (update_account_balance (.insert c3transfer) (fun _ => 0) 1 = -100) := by
  constructor
  · decide
  · decide

/-! ## Claim C4 -/

/-- C4 (confirmed): for distinct accounts and a positive amount `m` in
cents, `create_transfer_transaction` decreases the source balance by
exactly `m` and increases the destination balance by exactly `m`, leaves
every other account unchanged, and does so by appending a settled
negative expense leg and a settled positive income leg sharing a transfer
group id, with the balance changes produced only by the insert branch of
the `on_transaction_change` trigger (the RPC performs no balance write of
its own). -/
theorem create_transfer_moves_balance (st : DbState) (uid fromAcc toAcc : Nat)
    (m : Int) (d : Date) (tid id1 id2 : Nat)
    (hne : fromAcc ≠ toAcc) (hm : 0 < m) :
    (create_transfer_transaction uid fromAcc toAcc m d tid id1 id2 st).balances fromAcc
        = st.balances fromAcc - m
  ∧ (create_transfer_transaction uid fromAcc toAcc m d tid id1 id2 st).balances toAcc
        = st.balances toAcc + m
  ∧ (∀ c, c ≠ fromAcc → c ≠ toAcc →
      (create_transfer_transaction uid fromAcc toAcc m d tid id1 id2 st).balances c
        = st.balances c)
  ∧ (create_transfer_transaction uid fromAcc toAcc m d tid id1 id2 st).txs
      = st.txs ++ transferLegs uid fromAcc toAcc m d tid id1 id2
  ∧ (∀ t ∈ transferLegs uid fromAcc toAcc m d tid id1 id2,
      t.isPaid = true ∧ t.transferId = some tid ∧ t.includeInReports = false)
  ∧ (transferLegs uid fromAcc toAcc m d tid id1 id2).map Tx.ttype
      = [TxType.expense, TxType.income]
  ∧ (transferLegs uid fromAcc toAcc m d tid id1 id2).map Tx.amount = [-m, m] := by
  have habs : |m| = m := abs_of_pos hm
  refine ⟨?_, ?_, ?_, ?_, ?_, ?_, ?_⟩
  · simp only [create_transfer_transaction, transferLegs, insertTransaction,
      balance_insert_apply]
    simp [hne, habs]
    omega
  · simp only [create_transfer_transaction, transferLegs, insertTransaction,
      balance_insert_apply]
    simp [habs]
    intro h
    exact absurd h.symm hne
  · intro c hcf hct
    simp only [create_transfer_transaction, transferLegs, insertTransaction,
      balance_insert_apply]
    simp [hcf, hct]
  · simp [create_transfer_transaction, transferLegs, insertTransaction]
  · simp [transferLegs]
  · simp [transferLegs]
  · simp [transferLegs, habs]

/-- Witness: transferring 500 cents from account 1 to account 2 on the
all-zero state moves exactly 500 from balance 1 to balance 2 with both
legs settled. -/
theorem create_transfer_moves_balance_witness :
    (create_transfer_transaction 0 1 2 500 ⟨2025, 4, 1⟩ 9 21 22 emptyState).balances 1
        = emptyState.balances 1 - 500
  ∧ (create_transfer_transaction 0 1 2 500 ⟨2025, 4, 1⟩ 9 21 22 emptyState).balances 2
        = emptyState.balances 2 + 500
  ∧ (transferLegs 0 1 2 500 ⟨2025, 4, 1⟩ 9 21 22).map Tx.amount = [-500, 500] := by
  have h := create_transfer_moves_balance emptyState 0 1 2 500 ⟨2025, 4, 1⟩ 9 21 22
    (by decide) (by decide)
  exact ⟨h.1, h.2.1, h.2.2.2.2.2.2⟩

/-! ## Claim C5 -/

/-- C5 (amended): running the scheduler twice never creates duplicate
(account, closing date) cycles — the `ON CONFLICT DO NOTHING` insert
preserves key uniqueness — and the second run makes no change provided
today strictly precedes every processed account's computed closing date.
(When today *equals* an account's computed closing date, the first run
opens a cycle closing today and the second run closes it, so the second
run is not always a no-op; see the counterexample.) -/
theorem scheduler_idempotent (today : Date) (accounts : List Account)
    (bills : List Bill) :
    ((billKeys bills).Nodup →
      (billKeys (manage_credit_bills today accounts bills)).Nodup)
  ∧ ((∀ r ∈ creditRows accounts,
        Date.blt today (computeClosing today r.closeDay) = true) →
      manage_credit_bills today accounts (manage_credit_bills today accounts bills)
        = manage_credit_bills today accounts bills) :=
  ⟨billKeys_manage_nodup today accounts bills,
   manage_credit_bills_idem today accounts bills⟩

/-- Witness: on 2025-06-10 (not a closing day for a close-day-5 account)
the scheduler run is duplicate-free and re-running it changes nothing. -/
theorem scheduler_idempotent_witness :
    (billKeys (manage_credit_bills ⟨2025, 6, 10⟩ [closeDay5Account] [])).Nodup
  ∧ manage_credit_bills ⟨2025, 6, 10⟩ [closeDay5Account]
      (manage_credit_bills ⟨2025, 6, 10⟩ [closeDay5Account] [])
    = manage_credit_bills ⟨2025, 6, 10⟩ [closeDay5Account] [] := by
  have h := scheduler_idempotent ⟨2025, 6, 10⟩ [closeDay5Account] []
  exact ⟨h.1 (by decide), h.2 (by decide)⟩

/-- Counterexample to C5 as literally stated: on 2025-06-05 — exactly the
closing day of a close-day-5 account — the first run opens a cycle whose
closing date is today, and the second run closes it, so the second run
does change the stored billing cycles (open → closed), though it still
creates no duplicate. -/
theorem scheduler_idempotent_counterexample :
    manage_credit_bills ⟨2025, 6, 5⟩ [closeDay5Account]
        (manage_credit_bills ⟨2025, 6, 5⟩ [closeDay5Account] [])
      ≠ manage_credit_bills ⟨2025, 6, 5⟩ [closeDay5Account] []
  ∧ (manage_credit_bills ⟨2025, 6, 5⟩ [closeDay5Account] []).map Bill.status
      = ["open"]
  ∧ (manage_credit_bills ⟨2025, 6, 5⟩ [closeDay5Account]
      (manage_credit_bills ⟨2025, 6, 5⟩ [closeDay5Account] [])).map Bill.status
      = ["closed"] := by
  refine ⟨by decide, by decide, by decide⟩

/-! ## Lemmas: every scanned account ends up with its computed cycle -/

theorem processAccount_key_exists (today : Date) (r : CreditAccountRow)
    (bills : List Bill) :
    ∃ b ∈ processAccount today r bills,
      b.accountId = r.id ∧ b.closingDate = computeClosing today r.closeDay := by
  simp only [processAccount]
  split
  · next hany =>
      obtain ⟨b0, hb0, hcond⟩ := List.any_eq_true.mp hany
      simp only [Bool.and_eq_true, beq_iff_eq] at hcond
      exact ⟨b0, hb0, hcond.1, hcond.2⟩
  · exact ⟨nextBill today r, by simp, rfl, rfl⟩

theorem key_exists_processAccount (today : Date) (r2 : CreditAccountRow)
    (bills : List Bill) (accId : Nat) (c : Date)
    (h : ∃ b ∈ bills, b.accountId = accId ∧ b.closingDate = c) :
    ∃ b ∈ processAccount today r2 bills,
      b.accountId = accId ∧ b.closingDate = c := by
  obtain ⟨b0, hb0, h1, h2⟩ := h
  refine ⟨closeStep today r2.id b0, ?_, ?_, ?_⟩
  · simp only [processAccount]
    split
    · exact List.mem_map_of_mem _ hb0
    · exact List.mem_append_left _ (List.mem_map_of_mem _ hb0)
  · rw [(closeStep_fields today r2.id b0).1, h1]
  · rw [(closeStep_fields today r2.id b0).2.1, h2]

theorem fold_key_preserved (today : Date) (rows : List CreditAccountRow)
    (bills : List Bill) (accId : Nat) (c : Date)
    (h : ∃ b ∈ bills, b.accountId = accId ∧ b.closingDate = c) :
    ∃ b ∈ rows.foldl (fun bs acc => processAccount today acc bs) bills,
      b.accountId = accId ∧ b.closingDate = c := by
  induction rows generalizing bills with
  | nil => exact h
  | cons x rows ih =>
      simp only [List.foldl_cons]
      exact ih _ (key_exists_processAccount today x bills accId c h)

theorem fold_key_exists (today : Date) (rows : List CreditAccountRow)
    (bills : List Bill) (r : CreditAccountRow) (hr : r ∈ rows) :
    ∃ b ∈ rows.foldl (fun bs acc => processAccount today acc bs) bills,
      b.accountId = r.id ∧ b.closingDate = computeClosing today r.closeDay := by
  induction rows generalizing bills with
  | nil => cases hr
  | cons x rows ih =>
      simp only [List.foldl_cons]
      rcases List.mem_cons.mp hr with rfl | hrtail
      · exact fold_key_preserved today rows (processAccount today r bills)
          r.id _ (processAccount_key_exists today r bills)
      · exact ih _ hrtail

/-! ## Claim C9 -/

/-- C9 (amended): the scheduler has no validation and no logging for
malformed billing-day configurations — an account with day-of-month 0 or
greater than 31 is not skipped: the out-of-range value is absorbed by the
date arithmetic (day 0 rolls back into the previous month, larger values
overflow forward) and after the pass a cycle for the account's computed
closing date exists, while the pass — a total fold over the scanned
accounts — always continues over the remaining accounts and never
halts. -/
theorem malformed_day_not_skipped (today : Date) (accounts : List Account)
    (bills : List Bill) (a : Account) (cd dd : Int)
    (hmem : a ∈ accounts) (htype : a.atype = AccountType.credit)
    (hcd : a.closingDay = some cd) (hdd : a.dueDay = some dd)
    (hbad : cd ≤ 0 ∨ 31 < cd) :
    ∃ b ∈ manage_credit_bills today accounts bills,
      b.accountId = a.id ∧ b.closingDate = computeClosing today cd := by
  have hrow : (⟨a.id, a.userId, cd, dd⟩ : CreditAccountRow) ∈ creditRows accounts := by
    unfold creditRows
    apply List.mem_filterMap.mpr
    refine ⟨a, hmem, ?_⟩
    rw [htype, hcd, hdd]
  unfold manage_credit_bills
  exact fold_key_exists today (creditRows accounts) bills _ hrow

/-- Witness: an account with closing day 0 is processed by the pass — a
cycle for its computed closing date (2025-06-30, after the day-0 value
rolled back and then forward a month) exists afterwards. -/
theorem malformed_day_not_skipped_witness :
    ∃ b ∈ manage_credit_bills ⟨2025, 6, 10⟩ [badDayAccount] [],
      b.accountId = badDayAccount.id
        ∧ b.closingDate = computeClosing ⟨2025, 6, 10⟩ 0 := by
  apply malformed_day_not_skipped ⟨2025, 6, 10⟩ [badDayAccount] []
    badDayAccount 0 15
  · exact List.mem_singleton.mpr rfl
  · rfl
  · rfl
  · rfl
  · exact Or.inl (by norm_num)

/-- Counterexample to C9 as literally stated: the account with malformed
closing day 0 is not skipped and nothing is logged — the pass inserts a
billing cycle for it (start 2025-05-31, closing 2025-06-30, due
2025-06-15). -/
theorem malformed_day_counterexample :
    manage_credit_bills ⟨2025, 6, 10⟩ [badDayAccount] []
      = [{ userId := 3, accountId := 8, status := "open",
           startDate := ⟨2025, 5, 31⟩, closingDate := ⟨2025, 6, 30⟩,
           dueDate := ⟨2025, 6, 15⟩ }] := by
  decide

/-! ## Claim C6 -/

theorem computeClosing_day10_close5 (y m : Nat) (hm1 : 1 ≤ m) (hm2 : m ≤ 12) :
    computeClosing ⟨y, m, 10⟩ 5
      = if m < 12 then (⟨y, m + 1, 5⟩ : Date) else ⟨y + 1, 1, 5⟩ := by
  unfold computeClosing
  have h1 : Date.addDays (Date.truncMonth ⟨y, m, 10⟩) ((5 : Int) - 1) = ⟨y, m, 5⟩ := by
    show Date.addDays ⟨y, m, 1⟩ ((5 : Int) - 1) = ⟨y, m, 5⟩
    rw [Date.addDays, if_pos (by norm_num)]
    have h4 : ((5 : Int) - 1).toNat = 4 := by decide
    rw [h4]
    exact addDaysNat_within y m 1 4 (by have := daysInMonth_ge y m; omega)
  rw [h1]
  have hblt : Date.blt ⟨y, m, 5⟩ ⟨y, m, 10⟩ = true := by
    rw [Date.blt_mk]
    omega
  rw [if_pos hblt]
  by_cases hm12 : m < 12
  · rw [if_pos hm12]
    simp only [Date.addMonth]
    rw [if_pos hm12]
    have h5 : min 5 (daysInMonth y (m + 1)) = 5 := by
      have := daysInMonth_ge y (m + 1)
      omega
    rw [h5]
  · rw [if_neg hm12]
    simp only [Date.addMonth]
    rw [if_neg hm12]
    exact congrArg (Date.mk (y + 1) 1) (by decide)

theorem computeStart_day5 (y m : Nat) (hm1 : 1 ≤ m) (hm2 : m ≤ 12) :
    computeStart (if m < 12 then (⟨y, m + 1, 5⟩ : Date) else ⟨y + 1, 1, 5⟩)
      = ⟨y, m, 6⟩ := by
  by_cases hm12 : m < 12
  · rw [if_pos hm12]
    unfold computeStart
    simp only [Date.subMonth]
    rw [if_pos (show 1 < m + 1 by omega)]
    have h5 : min 5 (daysInMonth y (m + 1 - 1)) = 5 := by
      have := daysInMonth_ge y (m + 1 - 1)
      omega
    rw [h5]
    simp only [Nat.add_sub_cancel, Date.nextDay]
    rw [if_pos (by have := daysInMonth_ge y m; omega)]
  · have hm' : m = 12 := by omega
    subst hm'
    rw [if_neg hm12]
    unfold computeStart
    simp only [Date.subMonth]
    rw [if_neg (by norm_num)]
    simp only [Nat.add_sub_cancel, Date.nextDay]
    rw [if_pos (by have := daysInMonth_ge y 12; omega)]
    exact congrArg (Date.mk y 12) (by decide)

theorem computeDue_day5_due15 (y m : Nat) (hm1 : 1 ≤ m) (hm2 : m ≤ 12) :
    computeDue (if m < 12 then (⟨y, m + 1, 5⟩ : Date) else ⟨y + 1, 1, 5⟩) 5 15
      = if m < 12 then (⟨y, m + 1, 15⟩ : Date) else ⟨y + 1, 1, 15⟩ := by
  unfold computeDue
  rw [if_neg (show ¬ ((15 : Int) ≤ 5) by norm_num)]
  by_cases hm12 : m < 12
  · rw [if_pos hm12, if_pos hm12]
    show Date.addDays ⟨y, m + 1, 1⟩ ((15 : Int) - 1) = ⟨y, m + 1, 15⟩
    rw [Date.addDays, if_pos (by norm_num)]
    have h14 : ((15 : Int) - 1).toNat = 14 := by decide
    rw [h14]
    exact addDaysNat_within y (m + 1) 1 14
      (by have := daysInMonth_ge y (m + 1); omega)
  · rw [if_neg hm12, if_neg hm12]
    show Date.addDays ⟨y + 1, 1, 1⟩ ((15 : Int) - 1) = ⟨y + 1, 1, 15⟩
    rw [Date.addDays, if_pos (by norm_num)]
    have h14 : ((15 : Int) - 1).toNat = 14 := by decide
    rw [h14]
    exact addDaysNat_within (y + 1) 1 1 14
      (by have := daysInMonth_ge (y + 1) 1; omega)

/-- C6 (amended): for a credit account with close-day 5 and due-day 15
and no stored cycles, a scheduler run on day 10 of any month creates
exactly one cycle whose `start_date` is day 6 of the *current* month,
whose `closing_date` is day 5 of the *next* month (the day-roll rule of
§4.3 rolls forward because day 5 has already passed on day 10) and whose
due date is day 15 of that next month; running the scheduler again the
same day is a no-op.  The spec scenario's "start_date = day 6 of previous
month, closing_date = day 5 of current month" contradicts the roll rule
and the code (see the counterexample). -/
theorem scheduler_close5_due15_day10 (y m u i : Nat)
    (hm1 : 1 ≤ m) (hm2 : m ≤ 12) :
    manage_credit_bills ⟨y, m, 10⟩ [⟨i, u, .credit, some 5, some 15⟩] []
      = [{ userId := u, accountId := i, status := "open",
           startDate := ⟨y, m, 6⟩,
           closingDate := if m < 12 then ⟨y, m + 1, 5⟩ else ⟨y + 1, 1, 5⟩,
           dueDate := if m < 12 then ⟨y, m + 1, 15⟩ else ⟨y + 1, 1, 15⟩ }]
  ∧ manage_credit_bills ⟨y, m, 10⟩ [⟨i, u, .credit, some 5, some 15⟩]
      (manage_credit_bills ⟨y, m, 10⟩ [⟨i, u, .credit, some 5, some 15⟩] [])
    = manage_credit_bills ⟨y, m, 10⟩ [⟨i, u, .credit, some 5, some 15⟩] [] := by
  have hrows : creditRows [⟨i, u, .credit, some 5, some 15⟩]
      = [⟨i, u, 5, 15⟩] := rfl
  have hclosing := computeClosing_day10_close5 y m hm1 hm2
  constructor
  · unfold manage_credit_bills
    rw [hrows]
    simp only [List.foldl_cons, List.foldl_nil, processAccount, List.map_nil,
      List.any_nil, Bool.false_eq_true, if_false, List.nil_append, nextBill]
    rw [hclosing, computeStart_day5 y m hm1 hm2, computeDue_day5_due15 y m hm1 hm2]
  · apply manage_credit_bills_idem
    intro r hr
    rw [hrows, List.mem_singleton] at hr
    subst hr
    show Date.blt ⟨y, m, 10⟩ (computeClosing ⟨y, m, 10⟩ 5) = true
    rw [hclosing]
    by_cases hm12 : m < 12
    · rw [if_pos hm12, Date.blt_mk]
      omega
    · rw [if_neg hm12, Date.blt_mk]
      omega

/-- Witness: on 2025-06-10 the created cycle runs from 2025-06-06 to
2025-07-05 with due date 2025-07-15, and the second run is a no-op. -/
theorem scheduler_close5_due15_day10_witness :
    manage_credit_bills ⟨2025, 6, 10⟩ [⟨7, 3, .credit, some 5, some 15⟩] []
      = [{ userId := 3, accountId := 7, status := "open",
           startDate := ⟨2025, 6, 6⟩,
           closingDate := if 6 < 12 then ⟨2025, 7, 5⟩ else ⟨2026, 1, 5⟩,
           dueDate := if 6 < 12 then ⟨2025, 7, 15⟩ else ⟨2026, 1, 15⟩ }]
  ∧ manage_credit_bills ⟨2025, 6, 10⟩ [⟨7, 3, .credit, some 5, some 15⟩]
      (manage_credit_bills ⟨2025, 6, 10⟩ [⟨7, 3, .credit, some 5, some 15⟩] [])
    = manage_credit_bills ⟨2025, 6, 10⟩ [⟨7, 3, .credit, some 5, some 15⟩] [] :=
  scheduler_close5_due15_day10 2025 6 3 7 (by decide) (by decide)

/-- Counterexample to C6 as literally stated: on 2025-06-10 the cycle the
scheduler creates starts on 2025-06-06 and closes on 2025-07-05 — not on
day 6 of the previous month (2025-05-06) and day 5 of the current month
(2025-06-05) as the claim asserts. -/
theorem scheduler_close5_due15_day10_counterexample :
    (manage_credit_bills ⟨2025, 6, 10⟩ [closeDay5Account] []).map Bill.startDate
      = [⟨2025, 6, 6⟩]
  ∧ (manage_credit_bills ⟨2025, 6, 10⟩ [closeDay5Account] []).map Bill.closingDate
      = [⟨2025, 7, 5⟩]
  ∧ ¬ ((manage_credit_bills ⟨2025, 6, 10⟩ [closeDay5Account] []).map Bill.startDate
      = [⟨2025, 5, 6⟩])
  ∧ ¬ ((manage_credit_bills ⟨2025, 6, 10⟩ [closeDay5Account] []).map Bill.closingDate
      = [⟨2025, 6, 5⟩]) := by
  refine ⟨by decide, by decide, by decide, by decide⟩

/-! ## Claim C7 -/

/-- C7 (amended): the monthly series of `get_analytics_report` contains
at most 12 buckets in strictly ascending chronological order, but when
more than 12 months in the range have data it retains the *earliest*
12 of them, not the most recent 12 — `LIMIT 12` after `ORDER BY
month_start ASC` truncates from the recent end, so every month with data
that is missing from the series lies strictly after every month that is
present. -/
theorem monthly_series_shape (uid : Nat) (s e : Date) (cats : List Category)
    (txs : List Tx) :
    (get_analytics_report uid s e cats txs).monthly.length ≤ 12
  ∧ ((get_analytics_report uid s e cats txs).monthly.map
      MonthRow.monthKey).Pairwise monthLt
  ∧ (∀ t k, t ∈ txs → cashFlowFilter uid s e t = true →
      (t.date.year, t.date.month) ∉
        (get_analytics_report uid s e cats txs).monthly.map MonthRow.monthKey →
      k ∈ (get_analytics_report uid s e cats txs).monthly.map MonthRow.monthKey →
      monthLt k (t.date.year, t.date.month)) := by
  have hkeys : (get_analytics_report uid s e cats txs).monthly.map MonthRow.monthKey
      = (monthKeysSorted (txs.filter (cashFlowFilter uid s e))).take 12 :=
    monthlyReport_keys (txs.filter (cashFlowFilter uid s e))
  refine ⟨?_, ?_, ?_⟩
  · have hlen := congrArg List.length hkeys
    rw [List.length_map, List.length_take] at hlen
    rw [hlen]
    exact Nat.min_le_left _ _
  · rw [hkeys]
    exact List.Pairwise.sublist (List.take_sublist _ _)
      (monthKeysSorted_pairwise _)
  · intro t k hmem hfilt hnot hk
    rw [hkeys] at hnot hk
    have hin : (t.date.year, t.date.month)
        ∈ monthKeysSorted (txs.filter (cashFlowFilter uid s e)) :=
      (mem_monthKeysSorted _ _).mpr ⟨t, List.mem_filter.mpr ⟨hmem, hfilt⟩, rfl⟩
    rw [← List.take_append_drop 12
      (monthKeysSorted (txs.filter (cashFlowFilter uid s e)))] at hin
    rcases List.mem_append.mp hin with htake | hdrop
    · exact absurd htake hnot
    · have hpair := monthKeysSorted_pairwise (txs.filter (cashFlowFilter uid s e))
      rw [← List.take_append_drop 12
        (monthKeysSorted (txs.filter (cashFlowFilter uid s e)))] at hpair
      exact (List.pairwise_append.mp hpair).2.2 k hk _ hdrop

/-- Witness: over thirteen consecutive months of data the theorem places
every retained bucket strictly before the dropped month January 2025; in
particular December 2024 (retained) precedes it. -/
theorem monthly_series_shape_witness : monthLt (2024, 12) (2025, 1) := by
  have h := (monthly_series_shape 0 ⟨2024, 1, 1⟩ ⟨2025, 12, 31⟩ []
    thirteenMonthsTxs).2.2
  exact h jan2025Tx (2024, 12) (by decide) (by decide) (by decide) (by decide)

/-- Counterexample to C7 as literally stated: with settled in-range data
in all thirteen months from January 2024 to January 2025 the monthly
series keeps the earliest twelve buckets (2024-01 … 2024-12) and drops
the most recent month, January 2025 — it does not retain the most recent
12. -/
theorem monthly_series_counterexample :
    ((get_analytics_report 0 ⟨2024, 1, 1⟩ ⟨2025, 12, 31⟩ []
        thirteenMonthsTxs).monthly.map MonthRow.monthKey)
      = [(2024, 1), (2024, 2), (2024, 3), (2024, 4), (2024, 5), (2024, 6),
         (2024, 7), (2024, 8), (2024, 9), (2024, 10), (2024, 11), (2024, 12)]
  ∧ jan2025Tx ∈ thirteenMonthsTxs
  ∧ cashFlowFilter 0 ⟨2024, 1, 1⟩ ⟨2025, 12, 31⟩ jan2025Tx = true
  ∧ (2025, 1) ∉ ((get_analytics_report 0 ⟨2024, 1, 1⟩ ⟨2025, 12, 31⟩ []
        thirteenMonthsTxs).monthly.map MonthRow.monthKey) := by
  refine ⟨by decide, by decide, by decide, by decide⟩

/-! ## Claim C8 -/

theorem reconcile_fold_id (txId : Nat) (bankRef : String) (recDate now : Nat)
    (l : List Tx) (bal : Balances) :
    l.foldl (fun bal t => if t.id = txId then
        update_account_balance (.update t (reconcileRow t bankRef recDate now)) bal
      else bal) bal = bal := by
  induction l generalizing bal with
  | nil => rfl
  | cons t l ih =>
      simp only [List.foldl_cons]
      have hstep : (if t.id = txId then
          update_account_balance (.update t (reconcileRow t bankRef recDate now)) bal
        else bal) = bal := by
        split_ifs with h
        · exact reconcile_trigger_no_delta t bankRef recDate now bal
        · rfl
      rw [hstep]
      exact ih bal

theorem map_reconcileRow_field {α : Type} (txId : Nat) (bankRef : String)
    (recDate now : Nat) (g : Tx → α)
    (hg : ∀ t, g (reconcileRow t bankRef recDate now) = g t) (l : List Tx) :
    (l.map (fun t =>
        if t.id = txId then reconcileRow t bankRef recDate now else t)).map g
      = l.map g := by
  induction l with
  | nil => rfl
  | cons t l ih =>
      simp only [List.map_cons, ih]
      congr 1
      split_ifs with h
      · exact hg t
      · rfl

/-- C8 (confirmed): `reconcile_transaction` only sets the matched row's
bank reference, reconciliation date and updated-at timestamp and appends
one audit record; every row's amount, settlement flag and account
reference are unchanged and every account's cached balance is unchanged —
the balance trigger fired by the row update applies a net delta of zero
because the old and new amount, paid flag, account and type coincide. -/
theorem reconcile_is_balance_neutral (txId : Nat) (bankRef : String)
    (recDate now : Nat) (st : DbState) :
    (reconcile_transaction txId bankRef recDate now st).balances = st.balances
  ∧ (reconcile_transaction txId bankRef recDate now st).txs.map Tx.amount
      = st.txs.map Tx.amount
  ∧ (reconcile_transaction txId bankRef recDate now st).txs.map Tx.isPaid
      = st.txs.map Tx.isPaid
  ∧ (reconcile_transaction txId bankRef recDate now st).txs.map Tx.accountId
      = st.txs.map Tx.accountId
  ∧ (reconcile_transaction txId bankRef recDate now st).audit
      = st.audit ++ [⟨"RECONCILIATION", "transactions", txId, bankRef, recDate⟩] :=
  ⟨reconcile_fold_id txId bankRef recDate now st.txs st.balances,
   map_reconcileRow_field txId bankRef recDate now Tx.amount (fun _ => rfl) st.txs,
   map_reconcileRow_field txId bankRef recDate now Tx.isPaid (fun _ => rfl) st.txs,
   map_reconcileRow_field txId bankRef recDate now Tx.accountId (fun _ => rfl) st.txs,
   rfl⟩

/-! ## Claim C10 -/

/-- C10 (confirmed): both ledger rows created by
`create_transfer_transaction` carry `include_in_reports = FALSE` (with
types expense and income), so they never pass the report's cash-flow
filter, and `get_analytics_report` — its totals, category breakdown and
monthly series — is identical before and after any transfer, for every
user and date range. -/
theorem transfer_legs_excluded_from_reports (ruid uid fromAcc toAcc : Nat)
    (m : Int) (d s e : Date) (tid id1 id2 : Nat) (cats : List Category)
    (st : DbState) :
    get_analytics_report ruid s e cats
        (create_transfer_transaction uid fromAcc toAcc m d tid id1 id2 st).txs
      = get_analytics_report ruid s e cats st.txs
  ∧ (∀ t ∈ transferLegs uid fromAcc toAcc m d tid id1 id2,
      t.includeInReports = false ∧ cashFlowFilter ruid s e t = false)
  ∧ (transferLegs uid fromAcc toAcc m d tid id1 id2).map Tx.ttype
      = [TxType.expense, TxType.income] := by
  have htxs : (create_transfer_transaction uid fromAcc toAcc m d tid id1 id2 st).txs
      = st.txs ++ transferLegs uid fromAcc toAcc m d tid id1 id2 := by
    simp [create_transfer_transaction, transferLegs, insertTransaction]
  have hfilter : (transferLegs uid fromAcc toAcc m d tid id1 id2).filter
      (cashFlowFilter ruid s e) = [] := by
    simp [transferLegs, cashFlowFilter]
  refine ⟨?_, ?_, by simp [transferLegs]⟩
  · rw [htxs]
    simp only [get_analytics_report, List.filter_append, hfilter, List.append_nil]
  · intro t ht
    simp only [transferLegs, List.mem_cons, List.not_mem_nil, or_false] at ht
    rcases ht with rfl | rfl
    · exact ⟨rfl, by simp [cashFlowFilter]⟩
    · exact ⟨rfl, by simp [cashFlowFilter]⟩

end DinheroFlow
